import Mathlib

/-!
Verification of the pointer-trail / render-loop core of the `bubbles` sketch
(`src/src/components/gui.ts`), shallowly embedded in Lean 4.

Numbers that the source holds in JavaScript `number`s are modelled as exact
rationals (`ℚ`); the spec's "within floating-point tolerance" equalities hold
exactly in this model.  The trail array `this.pointerTrail` is modelled as a
`List Vec2`; the in-place `Vector2.copy` at an index becomes `List.set` at
that index.  The `uniforms` object is created in `addGeometry` (so its fields
are `Option`-valued before that point), and its `uPointerTrail.value` entry
holds a live reference to the very array `this.pointerTrail`: in the
embedding, dereferencing that uniform is therefore the state's current
`pointerTrail` field (see `Sketch.uPointerTrail`).
-/

/-- Embedding of `THREE.Vector2`: a pair of (rational) coordinates. -/
structure Vec2 where
  x : ℚ
  y : ℚ
  deriving DecidableEq, Repr

/-- Embedding of a DOM bounding client rectangle, as returned by
`this.canvas.getBoundingClientRect()`. -/
structure Rect where
  left : ℚ
  top : ℚ
  width : ℚ
  height : ℚ
  deriving DecidableEq, Repr

/-- Observable actions performed by one execution of `Sketch.render`
(lines 138-150), in source order. -/
inductive RenderEvent where
  | statsBegin
  | frameClockTick
  | trailAdvance
  | uniformFeedWrite
  | controlsUpdate
  | renderCall
  | statsEnd
  | requestNextTick
  deriving DecidableEq, Repr

/-- The state of a `Sketch` instance: the fields of the class that the claims
touch, plus the module-level `device` record (mutated by `onResize`) and the
relevant entries of the `uniforms` object created in `addGeometry`.
`uniformTime` and `uResolution` are `none` before `addGeometry` runs. -/
structure Sketch where
  time : ℚ
  mousePosition : Vec2
  trailLength : Nat
  pointerTrail : List Vec2
  deviceWidth : ℚ
  deviceHeight : ℚ
  cameraAspect : ℚ
  rendererWidth : ℚ
  rendererHeight : ℚ
  uniformTime : Option ℚ
  uResolution : Option Vec2
  deriving DecidableEq, Repr

/-- Dereference of `uniforms.uPointerTrail.value`: the uniform stores a
reference to the same array as `this.pointerTrail` (line 97), so reading it
yields the state's current trail contents. -/
def Sketch.uPointerTrail (s : Sketch) : List Vec2 :=
  s.pointerTrail

/-- One iteration of the loop body in `updatePointerTrail` (line 125):
`this.pointerTrail[i].copy(this.pointerTrail[i - 1])`. -/
def shiftStep (trail : List Vec2) (i : Nat) : List Vec2 :=
  trail.set i (trail.getD (i - 1) ⟨0, 0⟩)

/-- The loop `for (let i = this.trailLength - 1; i > 0; i--)` of
`updatePointerTrail` (lines 124-126): runs `shiftStep` at index `m`, then
`m - 1`, ..., down to `1`. -/
def trailShiftLoop (trail : List Vec2) : Nat → List Vec2
  | 0 => trail
  | m + 1 => trailShiftLoop (shiftStep trail (m + 1)) m

/-- Embedding of `Sketch.updatePointerTrail` (lines 123-128): shift the trail
right by one slot, then write `this.mousePosition` into slot 0. -/
def Sketch.updatePointerTrail (s : Sketch) : Sketch :=
  { s with pointerTrail :=
      (trailShiftLoop s.pointerTrail (s.trailLength - 1)).set 0 s.mousePosition }

/-- The normalized-device-coordinate computation of the `mousemove` handler
installed by `createMouseTracker` (lines 133-134). -/
def normalizePointer (rect : Rect) (clientX clientY : ℚ) : Vec2 :=
  ⟨(clientX - rect.left) / rect.width * 2 - 1,
   -((clientY - rect.top) / rect.height) * 2 + 1⟩

/-- Effect of one `mousemove` event (lines 131-135): overwrite
`this.mousePosition` with the normalized coordinates.  Nothing else changes;
in particular the trail buffer is untouched. -/
def Sketch.onMouseMove (s : Sketch) (rect : Rect) (clientX clientY : ℚ) : Sketch :=
  { s with mousePosition := normalizePointer rect clientX clientY }

/-- Embedding of `Sketch.addGeometry`, lines 94-98: create the `uniforms`
object with `time: {value: 0}`, `uResolution` holding the device dimensions
current at that moment, and `uPointerTrail` holding a reference to
`this.pointerTrail` (the reference is implicit in `Sketch.uPointerTrail`). -/
def Sketch.addGeometry (s : Sketch) : Sketch :=
  { s with uniformTime := some 0,
           uResolution := some ⟨s.deviceWidth, s.deviceHeight⟩ }

/-- Embedding of the `Sketch` constructor (lines 51-90).  The constructor body
sets `time := 0`, `mousePosition := (0,0)`, the camera aspect and renderer
size from the device dimensions, `trailLength := 15` and a trail of 15 zero
vectors; it then calls `init()` (line 89), whose first action is
`addGeometry()` (line 153), which creates the uniforms. -/
def Sketch.new (deviceWidth deviceHeight : ℚ) : Sketch :=
  Sketch.addGeometry
    { time := 0
      mousePosition := ⟨0, 0⟩
      trailLength := 15
      pointerTrail := List.replicate 15 ⟨0, 0⟩
      deviceWidth := deviceWidth
      deviceHeight := deviceHeight
      cameraAspect := deviceWidth / deviceHeight
      rendererWidth := deviceWidth
      rendererHeight := deviceHeight
      uniformTime := none
      uResolution := none }

/-- Embedding of `Sketch.render` (lines 138-150): advance the frame clock by
the fixed step 0.01, advance the pointer trail, write the new time into the
plane material's `time` uniform, then update controls, render once and
request the next animation frame.  Returns the new state together with the
trace of observable actions in source order. -/
def Sketch.render (s : Sketch) : Sketch × List RenderEvent :=
  let s1 := { s with time := s.time + 1 / 100 }
  let s2 := s1.updatePointerTrail
  let s3 := { s2 with uniformTime := some s2.time }
  (s3, [.statsBegin, .frameClockTick, .trailAdvance, .uniformFeedWrite,
        .controlsUpdate, .renderCall, .statsEnd, .requestNextTick])

/-- State part of one render tick. -/
def Sketch.tick (s : Sketch) : Sketch :=
  s.render.1

/-- Embedding of `Sketch.onResize` (lines 188-196): record the new window
dimensions in `device`, set the camera aspect to width/height, and resize the
renderer.  `time`, the trail buffer and the uniforms are untouched. -/
def Sketch.onResize (s : Sketch) (newWidth newHeight : ℚ) : Sketch :=
  { s with deviceWidth := newWidth,
           deviceHeight := newHeight,
           cameraAspect := newWidth / newHeight,
           rendererWidth := newWidth,
           rendererHeight := newHeight }

/-- The six steps of a tick named by the spec, in the claimed order. -/
def coreTickSteps : List RenderEvent :=
  [.frameClockTick, .trailAdvance, .uniformFeedWrite,
   .controlsUpdate, .renderCall, .requestNextTick]

/-! ## Helper lemmas -/

/-- A length-15 list is a literal of 15 elements. -/
theorem length15_destruct (l : List Vec2) (h : l.length = 15) :
    ∃ a0 a1 a2 a3 a4 a5 a6 a7 a8 a9 a10 a11 a12 a13 a14 : Vec2,
      l = [a0, a1, a2, a3, a4, a5, a6, a7, a8, a9, a10, a11, a12, a13, a14] := by
  match l, h with
  | [a0, a1, a2, a3, a4, a5, a6, a7, a8, a9, a10, a11, a12, a13, a14], _ =>
    exact ⟨a0, a1, a2, a3, a4, a5, a6, a7, a8, a9, a10, a11, a12, a13, a14, rfl⟩

/-- On a 15-element list, the downward copy loop followed by the slot-0 write
performs a right shift: the new head is the written value and the tail is the
old list without its last element. -/
theorem trailShiftLoop_fifteen
    (m a0 a1 a2 a3 a4 a5 a6 a7 a8 a9 a10 a11 a12 a13 a14 : Vec2) :
    (trailShiftLoop [a0, a1, a2, a3, a4, a5, a6, a7, a8, a9, a10, a11, a12, a13, a14] 14).set
        0 m
      = m :: [a0, a1, a2, a3, a4, a5, a6, a7, a8, a9, a10, a11, a12,
              a13, a14].dropLast := by
  rfl

/-- updatePointerTrail on a 15-slot buffer is a right shift feeding the
current mouse position into slot 0. -/
theorem updatePointerTrail_eq (s : Sketch) (hN : s.trailLength = 15)
    (hlen : s.pointerTrail.length = 15) :
    s.updatePointerTrail.pointerTrail = s.mousePosition :: s.pointerTrail.dropLast := by
  obtain ⟨a0, a1, a2, a3, a4, a5, a6, a7, a8, a9, a10, a11, a12, a13, a14, hl⟩ :=
    length15_destruct _ hlen
  simp only [Sketch.updatePointerTrail, hN, hl]
  exact trailShiftLoop_fifteen s.mousePosition a0 a1 a2 a3 a4 a5 a6 a7 a8 a9 a10 a11 a12 a13 a14

/-- The copy loop never changes the buffer's length. -/
theorem trailShiftLoop_length (m : Nat) :
    ∀ l : List Vec2, (trailShiftLoop l m).length = l.length := by
  induction m with
  | zero => intro l; rfl
  | succ n ih =>
    intro l
    rw [trailShiftLoop, ih, shiftStep, List.length_set]

/-- updatePointerTrail never changes the buffer's length. -/
theorem updatePointerTrail_length (s : Sketch) :
    s.updatePointerTrail.pointerTrail.length = s.pointerTrail.length := by
  simp [Sketch.updatePointerTrail, trailShiftLoop_length]

/-- One render tick adds exactly 1/100 to the frame clock. -/
theorem tick_time (s : Sketch) : s.tick.time = s.time + 1 / 100 :=
  rfl

/-! ## Claim theorems -/

/-- C1: for every trail buffer state (15 slots) and every current-pointer
value, one call to updatePointerTrail leaves index 0 equal to the current
pointer value and, for every i from 1 to 14, leaves index i equal to the
prior value at index i-1; the prior value at index 14 is discarded (the
buffer keeps 15 slots and no slot holds it unless it also occurs earlier). -/
theorem trail_advance_shifts_right (s : Sketch) (hN : s.trailLength = 15)
    (hlen : s.pointerTrail.length = 15) :
    s.updatePointerTrail.pointerTrail[0]? = some s.mousePosition ∧
    s.updatePointerTrail.pointerTrail.length = 15 ∧
    ∀ i : Nat, 1 ≤ i → i ≤ 14 →
      s.updatePointerTrail.pointerTrail[i]? = s.pointerTrail[i - 1]? := by
  obtain ⟨a0, a1, a2, a3, a4, a5, a6, a7, a8, a9, a10, a11, a12, a13, a14, hl⟩ :=
    length15_destruct _ hlen
  have he := updatePointerTrail_eq s hN hlen
  rw [hl] at he ⊢
  rw [he]
  refine ⟨rfl, rfl, ?_⟩
  intro i h1 h14
  interval_cases i <;> rfl

/-- Claim C1 witness: a concrete 15-slot buffer with distinct entries. -/
def sampleSketch : Sketch :=
  { Sketch.new 4 3 with
      mousePosition := ⟨5, 7⟩,
      pointerTrail :=
        [⟨1, 2⟩, ⟨3, 4⟩, ⟨5, 6⟩, ⟨7, 8⟩, ⟨9, 10⟩, ⟨11, 12⟩, ⟨13, 14⟩, ⟨15, 16⟩,
         ⟨17, 18⟩, ⟨19, 20⟩, ⟨21, 22⟩, ⟨23, 24⟩, ⟨25, 26⟩, ⟨27, 28⟩, ⟨29, 30⟩] }

/-- C1 witness: on the concrete buffer, the advance writes the pointer into
slot 0 and shifts slot 2 into slot 3. -/
theorem trail_advance_shifts_right_witness :
    sampleSketch.updatePointerTrail.pointerTrail[0]? = some ⟨5, 7⟩ ∧
    sampleSketch.updatePointerTrail.pointerTrail[3]? = sampleSketch.pointerTrail[2]? :=
  ⟨(trail_advance_shifts_right sampleSketch (by decide) (by decide)).1,
   (trail_advance_shifts_right sampleSketch (by decide) (by decide)).2.2 3
     (by decide) (by decide)⟩

/-- C2: after one render tick the plane material's time uniform equals the
current FrameTime (written this tick as a direct pass-through), and the
uPointerTrail uniform, read through its live reference to the trail array,
equals the current trail buffer contents. -/
theorem tick_uniform_passthrough (s : Sketch) :
    s.tick.uniformTime = some s.tick.time ∧
    s.tick.uPointerTrail = s.tick.pointerTrail ∧
    s.tick.time = s.time + 1 / 100 :=
  ⟨rfl, rfl, rfl⟩

/-- C4: the trail buffer is created with exactly 15 elements, a single
advance preserves the length of any buffer, and after any number of advance
calls from creation the length is still 15. -/
theorem trail_length_invariant (w h : ℚ) :
    (Sketch.new w h).pointerTrail.length = 15 ∧
    (∀ s : Sketch, s.updatePointerTrail.pointerTrail.length = s.pointerTrail.length) ∧
    ∀ k : Nat, (Sketch.updatePointerTrail^[k] (Sketch.new w h)).pointerTrail.length = 15 := by
  refine ⟨rfl, updatePointerTrail_length, ?_⟩
  intro k
  induction k with
  | zero => rfl
  | succ n ih =>
    rw [Function.iterate_succ_apply', updatePointerTrail_length, ih]

/-- C5: FrameTime starts at 0, each tick adds the fixed step 1/100 once
(irrespective of any wall clock, which the model has no access to), after k
ticks it equals k times 1/100, and it never decreases across a tick. -/
theorem frame_time_lockstep (w h : ℚ) :
    (Sketch.new w h).time = 0 ∧
    (∀ s : Sketch, s.tick.time = s.time + 1 / 100) ∧
    (∀ k : Nat, (Sketch.tick^[k] (Sketch.new w h)).time = k * (1 / 100)) ∧
    ∀ s : Sketch, s.time ≤ s.tick.time := by
  refine ⟨rfl, fun s => rfl, ?_, fun s => by rw [tick_time]; linarith⟩
  intro k
  induction k with
  | zero => simp [Sketch.new, Sketch.addGeometry]
  | succ n ih =>
    rw [Function.iterate_succ_apply', tick_time, ih]
    push_cast
    ring

/-- C6: one render tick performs, in order, the frame-clock advance, the
trail-buffer advance, the uniform-feed write, the controls update, exactly
one render call, and the request for the next animation frame (the stats
begin/end instrumentation is the only other action in the trace). -/
theorem tick_step_order (s : Sketch) :
    s.render.2 = [.statsBegin, .frameClockTick, .trailAdvance, .uniformFeedWrite,
                  .controlsUpdate, .renderCall, .statsEnd, .requestNextTick] ∧
    coreTickSteps.Sublist s.render.2 ∧
    s.render.2.count .renderCall = 1 := by
  refine ⟨rfl, ?_, ?_⟩
  · show coreTickSteps.Sublist
      [.statsBegin, .frameClockTick, .trailAdvance, .uniformFeedWrite,
       .controlsUpdate, .renderCall, .statsEnd, .requestNextTick]
    decide
  · show List.count RenderEvent.renderCall
      [.statsBegin, .frameClockTick, .trailAdvance, .uniformFeedWrite,
       .controlsUpdate, .renderCall, .statsEnd, .requestNextTick] = 1
    decide

/-- Projection of the normalized x coordinate. -/
theorem normalizePointer_x (rect : Rect) (cx cy : ℚ) :
    (normalizePointer rect cx cy).x = (cx - rect.left) / rect.width * 2 - 1 :=
  rfl

/-- Projection of the normalized y coordinate. -/
theorem normalizePointer_y (rect : Rect) (cx cy : ℚ) :
    (normalizePointer rect cx cy).y = -((cy - rect.top) / rect.height) * 2 + 1 :=
  rfl

/-- C3: a mousemove event at (cx, cy) over a surface with bounding rectangle
`rect` stores exactly x = (cx - left)/width * 2 - 1 and
y = -((cy - top)/height) * 2 + 1; in particular the rectangle's center maps
to (0,0), its top-left corner to (-1,1) and its bottom-right corner to
(1,-1), exactly (the model uses exact rationals). -/
theorem pointer_normalization (s : Sketch) (rect : Rect) (cx cy : ℚ)
    (hw : rect.width ≠ 0) (hh : rect.height ≠ 0) :
    (s.onMouseMove rect cx cy).mousePosition =
      ⟨(cx - rect.left) / rect.width * 2 - 1,
       -((cy - rect.top) / rect.height) * 2 + 1⟩ ∧
    normalizePointer rect (rect.left + rect.width / 2) (rect.top + rect.height / 2)
      = ⟨0, 0⟩ ∧
    normalizePointer rect rect.left rect.top = ⟨-1, 1⟩ ∧
    normalizePointer rect (rect.left + rect.width) (rect.top + rect.height)
      = ⟨1, -1⟩ := by
  refine ⟨rfl, ?_, ?_, ?_⟩ <;>
    · simp only [normalizePointer, Vec2.mk.injEq]
      constructor <;> field_simp <;> ring

/-- C3 witness: on the square surface with rectangle (0,0)-(2,2), the event
at (1,1) normalizes as the formula states, the center maps to (0,0), the
top-left corner to (-1,1) and the bottom-right corner to (1,-1). -/
theorem pointer_normalization_witness :
    ((Sketch.new 2 1).onMouseMove ⟨0, 0, 2, 2⟩ 1 1).mousePosition =
      ⟨(1 - 0) / 2 * 2 - 1, -((1 - 0) / 2) * 2 + 1⟩ ∧
    normalizePointer ⟨0, 0, 2, 2⟩ (0 + 2 / 2) (0 + 2 / 2) = ⟨0, 0⟩ ∧
    normalizePointer ⟨0, 0, 2, 2⟩ 0 0 = ⟨-1, 1⟩ ∧
    normalizePointer ⟨0, 0, 2, 2⟩ (0 + 2) (0 + 2) = ⟨1, -1⟩ :=
  pointer_normalization (Sketch.new 2 1) ⟨0, 0, 2, 2⟩ 1 1 (by decide) (by decide)

/-- C7: a mousemove event whose client coordinates lie outside the bounding
rectangle stores the normalized coordinates uncapped (no clamping anywhere on
the path), and the stored point lies outside the square [-1,1] x [-1,1]. -/
theorem pointer_out_of_surface_uncapped (s : Sketch) (rect : Rect) (cx cy : ℚ)
    (hw : 0 < rect.width) (hh : 0 < rect.height)
    (hout : ¬ (rect.left ≤ cx ∧ cx ≤ rect.left + rect.width ∧
               rect.top ≤ cy ∧ cy ≤ rect.top + rect.height)) :
    (s.onMouseMove rect cx cy).mousePosition = normalizePointer rect cx cy ∧
    ¬ (-1 ≤ (normalizePointer rect cx cy).x ∧ (normalizePointer rect cx cy).x ≤ 1 ∧
       -1 ≤ (normalizePointer rect cx cy).y ∧ (normalizePointer rect cx cy).y ≤ 1) := by
  refine ⟨rfl, fun hin => hout ?_⟩
  obtain ⟨h1, h2, h3, h4⟩ := hin
  rw [normalizePointer_x] at h1 h2
  rw [normalizePointer_y] at h3 h4
  have hx0 : 0 ≤ (cx - rect.left) / rect.width := by linarith
  have hx1 : (cx - rect.left) / rect.width ≤ 1 := by linarith
  have hy0 : 0 ≤ (cy - rect.top) / rect.height := by linarith
  have hy1 : (cy - rect.top) / rect.height ≤ 1 := by linarith
  have e1 : 0 ≤ cx - rect.left := by
    have h5 := mul_nonneg hx0 hw.le
    rwa [div_mul_cancel₀ _ (ne_of_gt hw)] at h5
  have e2 : cx - rect.left ≤ rect.width := (div_le_one hw).mp hx1
  have e3 : 0 ≤ cy - rect.top := by
    have h5 := mul_nonneg hy0 hh.le
    rwa [div_mul_cancel₀ _ (ne_of_gt hh)] at h5
  have e4 : cy - rect.top ≤ rect.height := (div_le_one hh).mp hy1
  exact ⟨by linarith, by linarith, by linarith, by linarith⟩

/-- C7 witness: the event at (5,1) lies outside the rectangle (0,0)-(2,2);
its stored normalized point is the raw formula value and lies outside the
unit square. -/
theorem pointer_out_of_surface_uncapped_witness :
    ((Sketch.new 2 1).onMouseMove ⟨0, 0, 2, 2⟩ 5 1).mousePosition =
      normalizePointer ⟨0, 0, 2, 2⟩ 5 1 ∧
    ¬ (-1 ≤ (normalizePointer ⟨0, 0, 2, 2⟩ 5 1).x ∧
       (normalizePointer ⟨0, 0, 2, 2⟩ 5 1).x ≤ 1 ∧
       -1 ≤ (normalizePointer ⟨0, 0, 2, 2⟩ 5 1).y ∧
       (normalizePointer ⟨0, 0, 2, 2⟩ 5 1).y ≤ 1) :=
  pointer_out_of_surface_uncapped (Sketch.new 2 1) ⟨0, 0, 2, 2⟩ 5 1
    (by norm_num) (by norm_num) (by norm_num)

/-- C8: a resize event sets the camera aspect to width/height and the
renderer size to the new dimensions, and leaves FrameTime and the trail
buffer untouched. -/
theorem resize_effect (s : Sketch) (w h : ℚ) :
    (s.onResize w h).cameraAspect = w / h ∧
    (s.onResize w h).rendererWidth = w ∧
    (s.onResize w h).rendererHeight = h ∧
    (s.onResize w h).time = s.time ∧
    (s.onResize w h).pointerTrail = s.pointerTrail :=
  ⟨rfl, rfl, rfl, rfl, rfl⟩

/-- C9: at construction the current pointer is (0,0) and all 15 trail slots
are (0,0); before any mousemove event, any number of advance calls leaves
every slot equal to (0,0). -/
theorem initial_trail_all_zero (w h : ℚ) :
    (Sketch.new w h).mousePosition = ⟨0, 0⟩ ∧
    (Sketch.new w h).pointerTrail = List.replicate 15 ⟨0, 0⟩ ∧
    ∀ k : Nat, (Sketch.updatePointerTrail^[k] (Sketch.new w h)).pointerTrail
      = List.replicate 15 ⟨0, 0⟩ := by
  refine ⟨rfl, rfl, ?_⟩
  have key : ∀ k : Nat,
      (Sketch.updatePointerTrail^[k] (Sketch.new w h)).mousePosition = ⟨0, 0⟩ ∧
      (Sketch.updatePointerTrail^[k] (Sketch.new w h)).trailLength = 15 ∧
      (Sketch.updatePointerTrail^[k] (Sketch.new w h)).pointerTrail
        = List.replicate 15 ⟨0, 0⟩ := by
    intro k
    induction k with
    | zero => exact ⟨rfl, rfl, rfl⟩
    | succ n ih =>
      obtain ⟨h1, h2, h3⟩ := ih
      rw [Function.iterate_succ_apply']
      refine ⟨h1, h2, ?_⟩
      show (trailShiftLoop (Sketch.updatePointerTrail^[n] (Sketch.new w h)).pointerTrail
          ((Sketch.updatePointerTrail^[n] (Sketch.new w h)).trailLength - 1)).set 0
            (Sketch.updatePointerTrail^[n] (Sketch.new w h)).mousePosition
        = List.replicate 15 ⟨0, 0⟩
      rw [h1, h2, h3]
      decide
  exact fun k => (key k).2.2

/-- C10: the uResolution uniform is written exactly once, by addGeometry,
with the device dimensions current at that moment (so at construction it
holds the construction-time dimensions); a resize changes the camera aspect
and renderer size but leaves uResolution untouched, as do render ticks,
trail advances and mousemove events. -/
theorem uResolution_written_once (s : Sketch) (w h : ℚ) :
    s.addGeometry.uResolution = some ⟨s.deviceWidth, s.deviceHeight⟩ ∧
    (Sketch.new w h).uResolution = some ⟨w, h⟩ ∧
    (s.onResize w h).uResolution = s.uResolution ∧
    (s.onResize w h).cameraAspect = w / h ∧
    (s.onResize w h).rendererWidth = w ∧
    s.tick.uResolution = s.uResolution ∧
    s.updatePointerTrail.uResolution = s.uResolution ∧
    (∀ rect : Rect, ∀ cx cy : ℚ, (s.onMouseMove rect cx cy).uResolution = s.uResolution) :=
  ⟨rfl, rfl, rfl, rfl, rfl, rfl, rfl, fun _ _ _ => rfl⟩
